import Mathlib

/-!
Shallow embedding of the distributed sort-with-pagination engine of
`worker/sort.go` (package `worker`), together with theorems checking the
specification's claims against it.

External collaborators that the engine only consumes (the schema catalog,
the badger key-value store, posting lists, the tokenizer registry, the
shard router and the remote task executor) are modelled as a read-only
environment `Env` of pure functions, exactly as the spec's §6 presents
them.  Cancellation is modelled by an oracle `cd : Nat → Bool` consulted
at the poll sites of the Go code (each loop polls `cd` at its iteration
index).  Panics — failed `x.AssertTrue*` assertions, out-of-range slice
indexing and nil dereferences — are modelled by the `Except Crash` error
channel, kept distinct from the `error` values the Go functions return.
-/

namespace DgraphSort

/-- Node identifier (`uint64` in the source; claims involve no overflow). -/
abbrev Uid := Nat

/-- `types.TypeID`: the closed scalar set of the spec's data model plus the
object (`uid`) type. -/
inductive TypeID where
  | int | float | bool | string | datetime | geo | password | deflt | uid
deriving DecidableEq, Repr

/-- `types.TypeID.IsScalar`: every type other than the object type. -/
def TypeID.IsScalar (t : TypeID) : Bool := t ≠ TypeID.uid

/-- `types.Val`.  `value = none` models a Go nil value, which sorts after
every present value. -/
structure Val where
  tid : TypeID
  value : Option Int
deriving DecidableEq, Repr

/-- The zero `types.Val` that `make([]types.Val, _)` fills arrays with. -/
def zeroVal : Val := ⟨TypeID.deflt, none⟩

/-- A tokenizer as the engine consumes it: identifier byte, name and
sortability flag (`tok.Tokenizer`). -/
structure Tokenizer where
  id : Nat
  name : String
  sortable : Bool
deriving DecidableEq, Repr

/-- One `protos.TaskValue` of a remote value matrix: its declared type and
its payload, `none` standing for the `x.Nilbyte` sentinel. -/
structure TaskValue where
  valType : TypeID
  val : Option Int
deriving DecidableEq, Repr

/-- `protos.SortMessage`. -/
structure SortMessage where
  attr : List String
  langs : List String
  count : Int
  offset : Int
  uidMatrix : List (List Uid)
  desc : List Bool
deriving DecidableEq, Repr

/-- `protos.SortResult`. -/
structure SortResult where
  uidMatrix : List (List Uid)
deriving DecidableEq, Repr

/-- `var emptySortResult protos.SortResult`. -/
def emptySortResult : SortResult := ⟨[]⟩

/-- The distinct error values the engine can hand back (spec §7 taxonomy;
each constructor corresponds to one `x.Errorf`/`fmt.Errorf` site or error
source of the code).  `wrongShard` names the structured error the spec
postulates for wrong-shard calls; no site of the code produces it. -/
inductive ErrKind where
  | negativeCount    -- processSort: negative or infinite count
  | sortOnList       -- processSort: sorting on a list attribute
  | objectType       -- "Cannot sort attribute ... of type object."
  | notDefined       -- sortWithIndex: "Attribute ... not defined in schema"
  | notIndexed       -- sortWithIndex: "Attribute ... is not indexed."
  | noExactIndex     -- sortWithIndex: string without exact index
  | notSortable      -- sortWithIndex: "Attribute ... is not sortable."
  | cancelled        -- ctx.Err()
  | conversionFailed -- types.Convert failure in the extender
  | remoteFailed     -- ProcessTaskOverNetwork failure
  | wrongShard       -- spec §7: structured wrong-shard error (never produced)
deriving DecidableEq, Repr

/-- Process crashes: failed assertions (`x.AssertTrue*` is fatal), slice
index panics and nil-pointer dereferences. -/
inductive Crash where
  | assertFailed
  | indexOutOfRange
  | nilDeref
deriving DecidableEq, Repr

/-- The `sortresult` struct: reply (a possibly nil pointer), per-row value
vectors for multi-attribute mode, and the error. -/
structure sortresult where
  reply : Option SortResult
  vals : List (List Val)
  err : Option ErrKind
deriving DecidableEq, Repr

/-- Per-row accumulator state of the indexed scanner (`intersectedList`). -/
structure IntersectedList where
  offset : Int
  ulist : List Uid
  values : List Val
deriving DecidableEq, Repr

/-- The three-way outcome of `intersectBucket`: the sentinel errors
`errContinue` / `errDone`, or a real error. -/
inductive BucketRes where
  | contin
  | done
  | err (e : ErrKind)
deriving DecidableEq, Repr

/-- Read-only environment: catalog, store, posting lists, router and the
remote task executor (spec §6 collaborators). -/
structure Env where
  /-- `schema.State().TypeOf` (`none` = undefined attribute). -/
  typeOf : String → Option TypeID
  /-- `schema.State().IsList`. -/
  isList : String → Bool
  /-- `schema.State().IsIndexed`. -/
  isIndexed : String → Bool
  /-- `schema.State().Tokenizer`. -/
  tokenizers : String → List Tokenizer
  /-- The tokens of the index keys under the `(attr, tokenizer id)` prefix,
  in ascending key order; the iterator seek/walk of `sortWithIndex` visits
  exactly these, reversed when descending. -/
  indexTokens : String → Nat → List String
  /-- Uids of the posting list at `x.IndexKey(attr, token)`, in list order. -/
  bucket : String → String → List Uid
  /-- `posting.Get(x.DataKey(attr, uid)).ValueFor(langs)`; `none` = error
  (no posting, language absent). -/
  valueFor : String → List String → Uid → Option Val
  /-- `types.Convert`; `none` = conversion failure. -/
  convert : Val → TypeID → Option Val
  /-- `groups().ServesGroup(group.BelongsTo(attr))` composed on the attr. -/
  servesGroup : String → Bool
  /-- `ProcessTaskOverNetwork` for a value query: attribute (after the
  leading `~` is stripped), reverse flag, uid list; yields the value
  matrix aligned to the uid list, or the remote error. -/
  taskValues : String → Bool → List Uid → Except ErrKind (List (List TaskValue))

/-- A context that is never cancelled. -/
def noCancel : Nat → Bool := fun _ => false

/-- A context that is already cancelled at every poll site. -/
def allCancel : Nat → Bool := fun _ => true

/-- Strict comparison of two values in ascending order; a nil value is
greater than every non-nil value (spec: "nil is greater"). -/
def valLt (a b : Val) : Bool :=
  match a.value, b.value with
  | none, _ => false
  | some _, none => true
  | some x, some y => decide (x < y)

/-- Lexicographic strict comparison of two value rows under per-column
directions; a `true` direction flips the column's comparator. -/
def lexLt : List Bool → List Val → List Val → Bool
  | d :: ds, a :: xs, b :: ys =>
    if d then
      (if valLt b a then true else if valLt a b then false else lexLt ds xs ys)
    else
      (if valLt a b then true else if valLt b a then false else lexLt ds xs ys)
  | _, _, _ => false

/-- Modelled from the spec: `types.Sort` (package `types`, not under
`src/`) — stably sort the value rows together with their uids, comparing
rows lexicographically under the per-column directions, nil greater than
every value (spec §4.6/§4.7 and the glossary's total order). -/
def typesSort (vals : List (List Val)) (uids : List Uid) (desc : List Bool) :
    List (List Val) × List Uid :=
  let pairs := (vals.zip uids).insertionSort (fun a b => lexLt desc b.1 a.1 = false)
  (pairs.map Prod.fst, pairs.map Prod.snd)

/-- `fetchValue`: read the value of `uid` for `attr`, then convert it to
the schema type; any failure is `none`. -/
def fetchValue (env : Env) (uid : Uid) (attr : String) (langs : List String)
    (scalar : TypeID) : Option Val :=
  match env.valueFor attr langs uid with
  | none => none
  | some src => env.convert src scalar

/-- The uid loop of `sortByValue`: walk the input uids polling the context,
dropping every uid whose fetch fails, and accumulating kept uids, their
wrapped values, and (in multi-attribute mode) the flat value list. -/
def sbvLoop (env : Env) (cd : Nat → Bool) (attr : String) (langs : List String)
    (multi : Bool) (typ : TypeID) :
    Nat → List Uid → List Uid → List (List Val) → List Val →
    List Uid × List (List Val) × List Val × Option ErrKind
  | _, [], us, vs, ms => (us, vs, ms, none)
  | i, uid :: rest, us, vs, ms =>
    if cd i then (us, vs, ms, some ErrKind.cancelled)
    else
      match fetchValue env uid attr langs typ with
      | none => sbvLoop env cd attr langs multi typ (i + 1) rest us vs ms
      | some v =>
          sbvLoop env cd attr langs multi typ (i + 1) rest
            (us ++ [uid]) (vs ++ [[v]]) (if multi then ms ++ [v] else ms)

/-- `sortByValue`: fetch values, drop uids with no value, sort the kept
uids by value, and return the (pre-sort) multi-sort values.  On
cancellation the input uid list is left as it was.  The multi-attribute
assertion `len(ul.Uids) == len(multiSortVals)` is a fatal check. -/
def sortByValue (env : Env) (cd : Nat → Bool) (ts : SortMessage)
    (ul : List Uid) (typ : TypeID) :
    Except Crash (List Uid × List Val × Option ErrKind) :=
  let multi := 1 < ts.attr.length
  match sbvLoop env cd ts.attr.headI ts.langs multi typ 0 ul [] [] [] with
  | (_, _, ms, some e) => Except.ok (ul, ms, some e)
  | (us, vs, ms, none) =>
    let sorted := typesSort vs us [ts.desc.headI]
    if multi ∧ sorted.2.length ≠ ms.length then Except.error Crash.assertFailed
    else Except.ok (sorted.2, ms, none)

/-- The intersection `pl.Uids(posting.ListOptions{Intersect: ul})` of the
index bucket's posting list with one input row: the bucket's uids that also
occur in the row, in bucket order. -/
def bucketHits (env : Env) (attr token : String) (ul : List Uid) : List Uid :=
  (env.bucket attr token).filter (fun u => u ∈ ul)

/-- The body of `intersectBucket`'s loop over the uid matrix, for one row
`ul` with accumulator `il`.  Inner `Except.error e` aborts the bucket with
error `e` (the Go `return err`). -/
def ibStep (env : Env) (cd : Nat → Bool) (ts : SortMessage) (sType : TypeID)
    (token : String) (ul : List Uid) (il : IntersectedList) :
    Except Crash (Except ErrKind IntersectedList) :=
  let count := ts.count
  if 0 < count ∧ count ≤ (il.ulist.length : Int) then
    Except.ok (Except.ok il)
  else
    let result := bucketHits env ts.attr.headI token ul
    let n : Int := result.length
    if n ≤ il.offset then
      Except.ok (Except.ok ⟨il.offset - n, il.ulist, il.values⟩)
    else
      match sortByValue env cd ts result sType with
      | Except.error c => Except.error c
      | Except.ok (_, _, some e) => Except.ok (Except.error e)
      | Except.ok (uids1, vals1, none) =>
        -- Result set might have shrunk; n is recomputed from the result.
        -- The slices result.Uids[il.offset:n] (and vals[il.offset:n], of
        -- the same length there) then have low > high — a slice-bounds
        -- panic — whenever the row sorter dropped the survivors below the
        -- offset; only on the non-panicking inputs are they List.drop.
        if 0 < il.offset ∧ (uids1.length : Int) < il.offset then
          Except.error Crash.indexOutOfRange
        else
        let uids2 := if 0 < il.offset then uids1.drop il.offset.toNat else uids1
        let vals2 :=
          if 0 < il.offset ∧ 1 < ts.attr.length then vals1.drop il.offset.toNat
          else vals1
        let off2 : Int := if 0 < il.offset then 0 else il.offset
        let n2 : Int := uids2.length
        -- In single-attribute mode the slack is positive here: the skip at
        -- the top guarantees the accumulator is still below count.
        let n3 : Int :=
          if 0 < count ∧ ts.attr.length = 1 then
            (let slack := count - il.ulist.length
             if slack < n2 then slack else n2)
          else n2
        Except.ok (Except.ok
          ⟨off2,
           il.ulist ++ uids2.take n3.toNat,
           if 1 < ts.attr.length then il.values ++ vals2.take n3.toNat
           else il.values⟩)

/-- The loop of `intersectBucket` over all rows of the uid matrix; `out`
entries past an aborting row are left as they were (the Go `out` array is
shared and the caller discards it on error). -/
def ibRows (env : Env) (cd : Nat → Bool) (ts : SortMessage) (sType : TypeID)
    (token : String) :
    List (List Uid) → List IntersectedList →
    Except Crash (Except ErrKind (List IntersectedList))
  | [], out => Except.ok (Except.ok out)
  | _ :: _, [] => Except.error Crash.indexOutOfRange  -- out[i] out of range
  | ul :: rest, il :: out =>
    match ibStep env cd ts sType token ul il with
    | Except.error c => Except.error c
    | Except.ok (Except.error e) => Except.ok (Except.error e)
    | Except.ok (Except.ok il2) =>
      match ibRows env cd ts sType token rest out with
      | Except.error c => Except.error c
      | Except.ok (Except.error e) => Except.ok (Except.error e)
      | Except.ok (Except.ok out2) => Except.ok (Except.ok (il2 :: out2))

/-- The size check at the end of `intersectBucket`: `errContinue` at the
first row still below `count`; in single-attribute mode a fatal assertion
that a filled row holds exactly `count`; `errDone` when every row passed. -/
def ibCheck (count : Int) (single : Bool) :
    List IntersectedList → Except Crash BucketRes
  | [] => Except.ok BucketRes.done
  | il :: rest =>
    if (il.ulist.length : Int) < count then Except.ok BucketRes.contin
    else if single ∧ (il.ulist.length : Int) ≠ count then
      Except.error Crash.assertFailed
    else ibCheck count single rest

/-- `intersectBucket`: intersect one index bucket with every row of the uid
matrix, maintaining per-row offset/count windows, then signal
continue/done. -/
def intersectBucket (env : Env) (cd : Nat → Bool) (ts : SortMessage)
    (token : String) (out : List IntersectedList) :
    Except Crash (BucketRes × List IntersectedList) :=
  match env.typeOf ts.attr.headI with
  | none => Except.ok (BucketRes.err ErrKind.objectType, out)
  | some sType =>
    if ¬ sType.IsScalar then Except.ok (BucketRes.err ErrKind.objectType, out)
    else
      match ibRows env cd ts sType token ts.uidMatrix out with
      | Except.error c => Except.error c
      | Except.ok (Except.error e) => Except.ok (BucketRes.err e, out)
      | Except.ok (Except.ok out2) =>
        match ibCheck ts.count (ts.attr.length = 1) out2 with
        | Except.error c => Except.error c
        | Except.ok sig => Except.ok (sig, out2)

/-- The bucket walk of `sortWithIndex` (the `BUCKETS` loop): poll the
context before each bucket, intersect, and stop on `errDone`, on an error
or when the key range is exhausted.  Returns the accumulators and the next
poll index. -/
def swiBuckets (env : Env) (cd : Nat → Bool) (ts : SortMessage) :
    List String → Nat → List IntersectedList →
    Except Crash (Except ErrKind (List IntersectedList × Nat))
  | [], k, out => Except.ok (Except.ok (out, k))
  | token :: rest, k, out =>
    if cd k then Except.ok (Except.error ErrKind.cancelled)
    else
      match intersectBucket env cd ts token out with
      | Except.error c => Except.error c
      | Except.ok (BucketRes.done, out2) => Except.ok (Except.ok (out2, k + 1))
      | Except.ok (BucketRes.contin, out2) => swiBuckets env cd ts rest (k + 1) out2
      | Except.ok (BucketRes.err e, _) => Except.ok (Except.error e)

/-- The Go loop selecting the first sortable tokenizer. -/
def firstSortable : List Tokenizer → Option Tokenizer
  | [] => none
  | t :: rest => if t.sortable then some t else firstSortable rest

/-- `sortWithIndex`: check the attribute is defined, indexed and has a
sortable tokenizer, then walk its index range (reversed when descending)
bucket by bucket.  Every cancellation or error exit pairs the empty sort
result with the error. -/
def sortWithIndex (env : Env) (cd : Nat → Bool) (ts : SortMessage) :
    Except Crash sortresult :=
  let out0 : List IntersectedList :=
    List.replicate ts.uidMatrix.length ⟨ts.offset, [], []⟩
  match env.typeOf ts.attr.headI with
  | none => Except.ok ⟨some emptySortResult, [], some ErrKind.notDefined⟩
  | some typ =>
    if ¬ env.isIndexed ts.attr.headI then
      Except.ok ⟨some emptySortResult, [], some ErrKind.notIndexed⟩
    else
      match firstSortable (env.tokenizers ts.attr.headI) with
      | none =>
        -- A string type can have several tokenizers, only one sortable;
        -- other types have a single tokenizer.
        if typ = TypeID.string then
          Except.ok ⟨some emptySortResult, [], some ErrKind.noExactIndex⟩
        else
          Except.ok ⟨some emptySortResult, [], some ErrKind.notSortable⟩
      | some tkz =>
        let toks := env.indexTokens ts.attr.headI tkz.id
        let walk := if ts.desc.headI then toks.reverse else toks
        match swiBuckets env cd ts walk 0 out0 with
        | Except.error c => Except.error c
        | Except.ok (Except.error e) =>
          Except.ok ⟨some emptySortResult, [], some e⟩
        | Except.ok (Except.ok (out2, k2)) =>
          let r := SortResult.mk (out2.map (fun il => il.ulist))
          let values :=
            if 1 < ts.attr.length then out2.map (fun il => il.values) else []
          if cd k2 then
            Except.ok ⟨some emptySortResult, [], some ErrKind.cancelled⟩
          else Except.ok ⟨some r, values, none⟩

/-- Modelled from the spec: `x.PageRange` (package `x`, not under `src/`)
— §4.8: `start = min(offset, len)`, `end = min(offset+count, len)`, and
`count == 0` means "all", `end = len`. -/
def pageRange (count offset n : Int) : Int × Int :=
  (min offset n, if count = 0 then n else min (offset + count) n)

/-- `paginate`: slice one sorted row to its pagination window. -/
def paginate (ts : SortMessage) (dest : List Uid) : List Uid :=
  let w := pageRange ts.count ts.offset (dest.length : Int)
  (dest.take w.2.toNat).drop w.1.toNat

/-- The row loop of `sortWithoutIndex`: poll the context per row, sort the
copied row by value, then paginate it. -/
def swoRows (env : Env) (cd : Nat → Bool) (ts : SortMessage) (sType : TypeID) :
    Nat → List (List Uid) → Except Crash (Except ErrKind (List (List Uid)))
  | _, [] => Except.ok (Except.ok [])
  | i, ul :: rest =>
    if cd i then Except.ok (Except.error ErrKind.cancelled)
    else
      match sortByValue env cd ts ul sType with
      | Except.error c => Except.error c
      | Except.ok (_, _, some e) => Except.ok (Except.error e)
      | Except.ok (uids2, _, none) =>
        match swoRows env cd ts sType (i + 1) rest with
        | Except.error c => Except.error c
        | Except.ok (Except.error e) => Except.ok (Except.error e)
        | Except.ok (Except.ok ms) => Except.ok (Except.ok (paginate ts uids2 :: ms))

/-- `sortWithoutIndex`: sort and paginate every row directly.  The
attribute must be a defined scalar.  Every cancellation or error exit
pairs the empty sort result with the error; no per-row values are
produced. -/
def sortWithoutIndex (env : Env) (cd : Nat → Bool) (ts : SortMessage) :
    Except Crash sortresult :=
  match env.typeOf ts.attr.headI with
  | none => Except.ok ⟨some emptySortResult, [], some ErrKind.objectType⟩
  | some sType =>
    if ¬ sType.IsScalar then
      Except.ok ⟨some emptySortResult, [], some ErrKind.objectType⟩
    else
      match swoRows env cd ts sType 0 ts.uidMatrix with
      | Except.error c => Except.error c
      | Except.ok (Except.error e) =>
        Except.ok ⟨some emptySortResult, [], some e⟩
      | Except.ok (Except.ok m) => Except.ok ⟨some (SortResult.mk m), [], none⟩

/-- `destUids`: the deduplicated union of all row uids, sorted ascending
(`sort.Slice` over the map's keys). -/
def destUids (m : List (List Uid)) : List Uid :=
  (m.flatten.dedup).insertionSort (· ≤ ·)

/-- Write `v` at row `i`, column `j` of the `sortVals` matrix. -/
def set2 (sv : List (List Val)) (i j : Nat) (v : Val) : List (List Val) :=
  sv.set i ((sv.getD i []).set j v)

/-- The inner loop of the primary fill pass of `processSort`: for each
`(uid, value)` pair of one row, locate the uid in `dest`
(`algo.IndexOf`, asserted non-negative), and write its primary value into
column 0 unless the uid was already seen. -/
def fillPrimGo (dest : List Uid) :
    List (Uid × Val) → List Uid → List (List Val) →
    Except Crash (List Uid × List (List Val))
  | [], seen, sv => Except.ok (seen, sv)
  | (uid, v) :: rest, seen, sv =>
    match dest.findIdx? (· = uid) with
    | none => Except.error Crash.assertFailed  -- x.AssertTrue(uidx >= 0)
    | some uidx =>
      if uid ∈ seen then fillPrimGo dest rest seen sv
      else fillPrimGo dest rest (uid :: seen) (set2 sv uidx 0 v)

/-- The primary fill pass of `processSort` over the uid matrix: each row
must come with its value vector (`r.vals[i]`, an index panic when absent)
of equal length (fatal assertion). -/
def fillPrimary (dest : List Uid) :
    List (List Uid) → List (List Val) → List Uid → List (List Val) →
    Except Crash (List (List Val))
  | [], _, _, sv => Except.ok sv
  | _ :: _, [], _, _ => Except.error Crash.indexOutOfRange  -- r.vals[i]
  | ul :: rest, vrow :: vrest, seen, sv =>
    if ul.length ≠ vrow.length then Except.error Crash.assertFailed
    else
      match fillPrimGo dest (ul.zip vrow) seen sv with
      | Except.error c => Except.error c
      | Except.ok (seen2, sv2) => fillPrimary dest rest vrest seen2 sv2

/-- The `~`-stripping of `fetchValues`: a leading tilde marks reverse-edge
traversal. -/
def stripTilde (a : String) : String × Bool :=
  if a.startsWith "~" then (a.drop 1, true) else (a, false)

/-- `fetchValues`: dispatch a value query for `dest` on one secondary
attribute. -/
def fetchValuesM (env : Env) (attr : String) (dest : List Uid) :
    Except ErrKind (List (List TaskValue)) :=
  let s := stripTilde attr
  env.taskValues s.1 s.2 dest

/-- Fill column `idx` of `sortVals` from one remote value matrix: walk
`dest`, take each row's first task value (`Values[0]`, an index panic when
absent), decode the nil sentinel or convert the payload (conversion
failure aborts the whole request: inner `Except.error`). -/
def fillColGo (env : Env) (idx : Nat) (matrix : List (List TaskValue)) :
    Nat → List Uid → List Uid → List (List Val) →
    Except Crash (Except ErrKind (List (List Val)))
  | _, [], _, sv => Except.ok (Except.ok sv)
  | d, uid :: rest, seen, sv =>
    if uid ∈ seen then fillColGo env idx matrix (d + 1) rest seen sv
    else
      match (matrix.getD d []).head? with
      | none => Except.error Crash.indexOutOfRange  -- .Values[0]
      | some v =>
        match (if v.val.isNone then some (Val.mk v.valType none)
               else env.convert ⟨v.valType, v.val⟩ v.valType) with
        | none => Except.ok (Except.error ErrKind.conversionFailed)
        | some sv0 =>
          fillColGo env idx matrix (d + 1) rest (uid :: seen) (set2 sv d idx sv0)

/-- The drain loop over the secondary-attribute results of `processSort`
(modelled in ascending attribute order): a first failed fetch is recorded
in `oerr` and skipped; a second one dereferences the nil result (panic);
a successful result must be aligned to `dest` (fatal assertion) and fills
its column. -/
def drainOrders (env : Env) (dest : List Uid) (attrs : List String) :
    List Nat → Option ErrKind → List (List Val) →
    Except Crash (Except ErrKind (Option ErrKind × List (List Val)))
  | [], oerr, sv => Except.ok (Except.ok (oerr, sv))
  | idx :: rest, oerr, sv =>
    match fetchValuesM env (attrs.getD idx "") dest with
    | Except.error e =>
      if oerr.isNone then drainOrders env dest attrs rest (some e) sv
      else Except.error Crash.nilDeref  -- result.ValueMatrix on nil result
    | Except.ok matrix =>
      if matrix.length ≠ dest.length then Except.error Crash.assertFailed
      else
        match fillColGo env idx matrix 0 dest [] sv with
        | Except.error c => Except.error c
        | Except.ok (Except.error e) => Except.ok (Except.error e)
        | Except.ok (Except.ok sv2) => drainOrders env dest attrs rest oerr sv2

/-- The value-vector lookup of the final loop of `processSort`: each row
uid is located in `dest` (`algo.IndexOf`, asserted non-negative) and its
accumulated value vector collected. -/
def rowVals (dest : List Uid) (sortVals : List (List Val)) :
    List Uid → Except Crash (List (List Val))
  | [] => Except.ok []
  | uid :: rest =>
    match dest.findIdx? (· = uid) with
    | none => Except.error Crash.assertFailed  -- x.AssertTrue(idx >= 0)
    | some d =>
      match rowVals dest sortVals rest with
      | Except.error c => Except.error c
      | Except.ok vs => Except.ok (sortVals.getD d [] :: vs)

/-- The final loop of `processSort`: rebuild each row's value vectors
(uids asserted present in `dest`), lexicographically re-sort the row, then
assert `len(row) ≥ count` (fatal) and truncate the row to `count`. -/
def multiSortFinal (dest : List Uid) (sortVals : List (List Val))
    (desc : List Bool) (count : Int) :
    List (List Uid) → Except Crash (List (List Uid))
  | [] => Except.ok []
  | ul :: rest =>
    match rowVals dest sortVals ul with
    | Except.error c => Except.error c
    | Except.ok vals =>
      let sorted := typesSort vals ul desc
      if (sorted.2.length : Int) < count then Except.error Crash.assertFailed
      else
        match multiSortFinal dest sortVals desc count rest with
        | Except.error c => Except.error c
        | Except.ok ms => Except.ok (sorted.2.take count.toNat :: ms)

/-- `processSort`: validate the request, race the two strategies (the
boolean schedule `noIdxFirst` says whose result the racer takes first; the
non-indexed task polls the context once before its start delay), take the
first non-error result (or the second result after a first error), and,
for multi-attribute requests that did not error, run the extension:
union of uids, primary fill, secondary fetches, lexicographic re-sort and
truncation. -/
def processSort (env : Env) (cd : Nat → Bool) (ts : SortMessage)
    (noIdxFirst : Bool) : Except Crash (Option SortResult × Option ErrKind) :=
  if ts.count < 0 then Except.ok (none, some ErrKind.negativeCount)
  else if env.isList ts.attr.headI then Except.ok (none, some ErrKind.sortOnList)
  else
    match (if cd 0 then Except.ok ⟨none, [], some ErrKind.cancelled⟩
           else sortWithoutIndex env cd ts) with
    | Except.error c => Except.error c
    | Except.ok r1 =>
      match sortWithIndex env cd ts with
      | Except.error c => Except.error c
      | Except.ok r2 =>
        let first := if noIdxFirst then r1 else r2
        let second := if noIdxFirst then r2 else r1
        let r := if first.err.isNone then first else second
        if ¬ 1 < ts.attr.length ∨ ¬ r.err.isNone then Except.ok (r.reply, r.err)
        else
          match r.reply with
          | none => Except.error Crash.nilDeref
          | some reply =>
            let dest := destUids reply.uidMatrix
            let sv0 :=
              List.replicate dest.length (List.replicate ts.attr.length zeroVal)
            match fillPrimary dest reply.uidMatrix r.vals [] sv0 with
            | Except.error c => Except.error c
            | Except.ok sv1 =>
              match drainOrders env dest ts.attr
                  ((List.range ts.attr.length).drop 1) none sv1 with
              | Except.error c => Except.error c
              | Except.ok (Except.error e) => Except.ok (some reply, some e)
              | Except.ok (Except.ok (some oerr, _)) =>
                Except.ok (some reply, some oerr)
              | Except.ok (Except.ok (none, sv2)) =>
                match multiSortFinal dest sv2 ts.desc ts.count reply.uidMatrix with
                | Except.error c => Except.error c
                | Except.ok m => Except.ok (some (SortResult.mk m), none)

/-- The grpc `Sort` handler: an already-cancelled context returns the empty
result with the cancellation error; a request whose first attribute's
shard is not served locally hits the fatal `x.AssertTruef`; otherwise
`processSort` runs, raced against cancellation. -/
def grpcSort (env : Env) (cd : Nat → Bool) (ts : SortMessage)
    (noIdxFirst : Bool) : Except Crash (Option SortResult × Option ErrKind) :=
  if cd 0 then Except.ok (some emptySortResult, some ErrKind.cancelled)
  else if ¬ env.servesGroup ts.attr.headI then Except.error Crash.assertFailed
  else
    match processSort env cd ts noIdxFirst with
    | Except.error c => Except.error c
    | Except.ok (reply, e) =>
      if cd 1 then Except.ok (some emptySortResult, some ErrKind.cancelled)
      else Except.ok (reply, e)

/-- The spec's §7 `InvalidRequest` class: negative count, sort on a list or
object type, undefined attribute. -/
def isInvalidRequestClass : ErrKind → Bool
  | ErrKind.negativeCount => true
  | ErrKind.sortOnList => true
  | ErrKind.objectType => true
  | ErrKind.notDefined => true
  | _ => false

/-! ## Concrete fixtures

Small closed environments and requests used by the counterexamples and
witnesses.  `attrA` is an indexed int attribute with a one-bucket index;
`attrB` is a plain int attribute answered remotely with the value 7. -/

/-- An environment with int attributes `a` (indexed, one bucket `t`
holding uid 1 with value 5) and `b` (remote value 7 for every uid). -/
def envA : Env where
  typeOf := fun a =>
    if a = "a" then some TypeID.int else if a = "b" then some TypeID.int else none
  isList := fun _ => false
  isIndexed := fun a => a = "a"
  tokenizers := fun a => if a = "a" then [⟨1, "int", true⟩] else []
  indexTokens := fun a i => if a = "a" ∧ i = 1 then ["t"] else []
  bucket := fun a t => if a = "a" ∧ t = "t" then [1] else []
  valueFor := fun a _ u =>
    if a = "a" ∧ u = 1 then some ⟨TypeID.int, some 5⟩ else none
  convert := fun v _ => some v
  servesGroup := fun _ => true
  taskValues := fun _ _ us => Except.ok (us.map fun _ => [⟨TypeID.int, some 7⟩])

/-- `envA` with the index switched off: only the non-indexed strategy can
succeed. -/
def envC1 : Env := { envA with isIndexed := fun _ => false }

/-- A two-attribute request over the single row `[1]`. -/
def tsC1 : SortMessage := ⟨["a", "b"], [], 0, 0, [[1]], [false, false]⟩

/-- An environment whose bucket `t` of `a` holds uid 2, every uid carrying
its own value. -/
def envC2 : Env :=
  { envA with
    bucket := fun a t => if a = "a" ∧ t = "t" then [2] else []
    valueFor := fun a _ u =>
      if a = "a" then some ⟨TypeID.int, some (u : Int)⟩ else none }

/-- Two sort attributes, `count = 1`, one row `[2]`. -/
def tsC2 : SortMessage := ⟨["a", "b"], [], 1, 0, [[2]], [false, false]⟩

/-- An environment with int attributes `x`/`y`, bucket `u` of `x` holding
uid 3 with value 3. -/
def envC3 : Env where
  typeOf := fun a =>
    if a = "x" then some TypeID.int else if a = "y" then some TypeID.int else none
  isList := fun _ => false
  isIndexed := fun a => a = "x"
  tokenizers := fun a => if a = "x" then [⟨1, "int", true⟩] else []
  indexTokens := fun a i => if a = "x" ∧ i = 1 then ["u"] else []
  bucket := fun a t => if a = "x" ∧ t = "u" then [3] else []
  valueFor := fun a _ u =>
    if a = "x" then some ⟨TypeID.int, some (u : Int)⟩ else none
  convert := fun v _ => some v
  servesGroup := fun _ => true
  taskValues := fun _ _ us => Except.ok (us.map fun _ => [⟨TypeID.int, some 7⟩])

/-- Two sort attributes on `x`/`y`, `count = 1`, one row `[3]`. -/
def tsC3 : SortMessage := ⟨["x", "y"], [], 1, 0, [[3]], [false, false]⟩

/-- Two sort attributes, `count = 2`, but the only row holds a single uid. -/
def tsC4 : SortMessage := ⟨["a", "b"], [], 2, 0, [[1]], [false, false]⟩

/-- `envA` with no shard served locally. -/
def envC5 : Env := { envA with servesGroup := fun _ => false }

/-- A single-attribute request over `a`. -/
def tsC5 : SortMessage := ⟨["a"], [], 1, 0, [[1]], [false]⟩

/-- A single-attribute request over the two uids 1 and 2 (only uid 1 has a
value for `a` in `envA`). -/
def tsC7 : SortMessage := ⟨["a"], [], 0, 0, [[1, 2]], [false]⟩

/-- An environment whose attribute `u` is object-typed (`uid`) and, as the
schema parser guarantees for object types, not indexed. -/
def envC8 : Env :=
  { envA with
    typeOf := fun a => if a = "u" then some TypeID.uid else none
    isIndexed := fun _ => false }

/-- A request sorting by the object-typed attribute `u`. -/
def tsC8 : SortMessage := ⟨["u"], [], 0, 0, [[1]], [false]⟩

/-- A request with a negative count. -/
def tsC8w : SortMessage := ⟨["a"], [], -1, 0, [[1]], [false]⟩

/-- An environment that defines no attribute at all. -/
def envC9 : Env := { envA with typeOf := fun _ => none }

/-- A single-attribute request over the undefined attribute `n`. -/
def tsC9 : SortMessage := ⟨["n"], [], 1, 0, [[1]], [false]⟩

/-- A multi-attribute request with `count = 0` over the single row `[1]`. -/
def tsC10 : SortMessage := ⟨["a", "b"], [], 0, 0, [[1]], [false, false]⟩

/-! ## Counterexamples -/

/-- C1: counterexample.  On `envC1`/`tsC1` the non-indexed strategy wins
the race with the single-attribute result `[[1]]` and no error — yet
`processSort` does not return it: it proceeds into the multi-attribute
extension and panics indexing the absent per-row value vectors
(`r.vals[i]`), because the non-indexed path never produces them. -/
theorem c1_counterexample :
    sortWithoutIndex envC1 noCancel tsC1 =
      Except.ok ⟨some (SortResult.mk [[1]]), [], none⟩ ∧
    processSort envC1 noCancel tsC1 true = Except.error Crash.indexOutOfRange := by
  constructor <;> rfl

/-- C2: counterexample.  In multi-attribute mode (`tsC2` has two
attributes), a bucket whose intersection with the row is non-empty is
nevertheless skipped because the row's accumulator already holds
`count = 1` uids, and the intersector returns `Done` — not `Continue` —
although the key range is not exhausted. -/
theorem c2_counterexample :
    intersectBucket envC2 noCancel tsC2 "t" [⟨0, [5], []⟩] =
      Except.ok (BucketRes.done, [⟨0, [5], []⟩]) ∧
    bucketHits envC2 "a" "t" [2] = [2] := by
  constructor <;> rfl

/-- C3: counterexample.  For the row `[3]` with offset 0 and a bucket hit
`[3]`, the claim's window algorithm would value-sort the hit and append it
(the row sorter succeeds and keeps uid 3) — but the intersector skips the
row entirely because its accumulator already holds `count = 1` uids, so
the accumulator stays `[9]` instead of becoming `[9, 3]`. -/
theorem c3_counterexample :
    ibStep envC3 noCancel tsC3 TypeID.int "u" [3] ⟨0, [9], []⟩ =
      Except.ok (Except.ok ⟨0, [9], []⟩) ∧
    bucketHits envC3 "x" "u" [3] = [3] ∧
    sortByValue envC3 noCancel tsC3 [3] TypeID.int =
      Except.ok ([3], [⟨TypeID.int, some 3⟩], none) ∧
    (⟨0, [9], []⟩ : IntersectedList) ≠ ⟨0, [9, 3], [⟨TypeID.int, some 3⟩]⟩ := by
  refine ⟨rfl, rfl, rfl, ?_⟩
  decide

/-- C4: counterexample.  The indexed path succeeds on `envA`/`tsC4` with
the single-uid row `[1]` and its value vector, the request reaches the
extender, and the pre-truncation assertion `len(row) ≥ count` fails
(`1 < 2`): `processSort` panics instead of truncating. -/
theorem c4_counterexample :
    sortWithIndex envA noCancel tsC4 =
      Except.ok ⟨some (SortResult.mk [[1]]), [[⟨TypeID.int, some 5⟩]], none⟩ ∧
    processSort envA noCancel tsC4 false = Except.error Crash.assertFailed := by
  constructor <;> rfl

/-- C5: counterexample.  A request whose first attribute's shard is not
served locally makes the handler fail the fatal `x.AssertTruef` — the
process crashes; no structured `WrongShard` error value is returned to
the caller. -/
theorem c5_counterexample :
    grpcSort envC5 noCancel tsC5 true = Except.error Crash.assertFailed := by
  rfl

/-- C8: counterexample.  Sorting on the object-typed attribute `u`: when
the non-indexed result arrives first (it fails with the object-type
error), the racer takes the indexed result, whose error is `NotIndexed` —
an error outside the spec's `InvalidRequest` class. -/
theorem c8_counterexample :
    processSort envC8 noCancel tsC8 true =
      Except.ok (some emptySortResult, some ErrKind.notIndexed) ∧
    isInvalidRequestClass ErrKind.notIndexed = false := by
  constructor <;> rfl

/-! ## Claim theorems -/

/-- C5 (amended): when the local node does not serve the shard of the
first attribute and the context is alive, the `Sort` handler fails the
fatal assertion — it terminates the process instead of returning a
structured error to the caller. -/
theorem c5_amended (env : Env) (cd : Nat → Bool) (ts : SortMessage) (b : Bool)
    (h0 : cd 0 = false) (h : env.servesGroup ts.attr.headI = false) :
    grpcSort env cd ts b = Except.error Crash.assertFailed := by
  unfold grpcSort
  simp [h0, h]

/-- C5 witness: the amended theorem applied at the concrete wrong-shard
fixture. -/
theorem c5_witness :
    grpcSort envC5 noCancel tsC5 false = Except.error Crash.assertFailed :=
  c5_amended envC5 noCancel tsC5 false rfl rfl

/-- C6 (confirmed): whenever a sort-path invocation — non-indexed or
indexed — returns the cancellation error, its reply is the empty sort
result with no value vectors: no partially filled matrix accompanies a
cancellation error. -/
theorem c6_theorem (env : Env) (cd : Nat → Bool) (ts : SortMessage) (r : sortresult) :
    ((sortWithoutIndex env cd ts = Except.ok r ∧ r.err = some ErrKind.cancelled) →
      r.reply = some emptySortResult ∧ r.vals = []) ∧
    ((sortWithIndex env cd ts = Except.ok r ∧ r.err = some ErrKind.cancelled) →
      r.reply = some emptySortResult ∧ r.vals = []) := by
  constructor
  · rintro ⟨h, he⟩
    unfold sortWithoutIndex at h
    repeat
      first
      | (rw [Except.ok.injEq] at h; subst h;
         first
         | exact ⟨rfl, rfl⟩
         | simp at he)
      | exact Except.noConfusion h
      | split at h
      | simp only [] at h
  · rintro ⟨h, he⟩
    unfold sortWithIndex at h
    repeat
      first
      | (rw [Except.ok.injEq] at h; subst h;
         first
         | exact ⟨rfl, rfl⟩
         | simp at he)
      | exact Except.noConfusion h
      | split at h
      | simp only [] at h

/-- C6 witness: the theorem applied to a concrete cancelled run of the
non-indexed path. -/
theorem c6_witness :
    (⟨some emptySortResult, [], some ErrKind.cancelled⟩ : sortresult).reply =
      some emptySortResult ∧
    (⟨some emptySortResult, [], some ErrKind.cancelled⟩ : sortresult).vals = [] :=
  (c6_theorem envA allCancel tsC5
    ⟨some emptySortResult, [], some ErrKind.cancelled⟩).1 ⟨rfl, rfl⟩

/-- The Go tokenizer-selection loop picks a sortable tokenizer, and it is
the first sortable one of the list. -/
theorem firstSortable_spec : ∀ (toks : List Tokenizer) (t : Tokenizer),
    firstSortable toks = some t →
    t.sortable = true ∧
      ∃ pre post, toks = pre ++ t :: post ∧ ∀ u ∈ pre, u.sortable = false := by
  intro toks
  induction toks with
  | nil => intro t h; exact absurd h (by simp [firstSortable])
  | cons x rest ih =>
    intro t h
    unfold firstSortable at h
    split at h
    · rw [Option.some.injEq] at h
      subst h
      exact ⟨by assumption, [], rest, rfl, by simp⟩
    · obtain ⟨hs, pre, post, heq, hpre⟩ := ih t h
      refine ⟨hs, x :: pre, post, by rw [heq]; rfl, ?_⟩
      intro u hu
      rcases List.mem_cons.1 hu with h1 | h2
      · subst h1
        simpa using ‹¬ u.sortable = true›
      · exact hpre u h2

/-- C9 (confirmed): under the catalog invariant that object-typed
attributes are never indexed (the schema parser rejects `@index` on
`uid`, cf. the schema tests), the indexed scanner fails unless the first
attribute is scalar, indexed and has a sortable tokenizer: an undefined
attribute gives the schema error, a non-indexed one — in particular every
object-typed one — gives `NotIndexed`, an indexed attribute without a
sortable tokenizer gives `NotSortable`, with the distinct
missing-exact-index error for strings; and the tokenizer the scanner
selects is the first sortable one. -/
theorem c9_theorem (env : Env) (cd : Nat → Bool) (ts : SortMessage)
    (hwf : ∀ a, env.typeOf a = some TypeID.uid → env.isIndexed a = false) :
    (env.typeOf ts.attr.headI = none →
      sortWithIndex env cd ts =
        Except.ok ⟨some emptySortResult, [], some ErrKind.notDefined⟩) ∧
    (∀ τ, env.typeOf ts.attr.headI = some τ →
      env.isIndexed ts.attr.headI = false →
      sortWithIndex env cd ts =
        Except.ok ⟨some emptySortResult, [], some ErrKind.notIndexed⟩) ∧
    (∀ τ, env.typeOf ts.attr.headI = some τ →
      env.isIndexed ts.attr.headI = true →
      firstSortable (env.tokenizers ts.attr.headI) = none →
      sortWithIndex env cd ts =
        Except.ok ⟨some emptySortResult, [],
          some (if τ = TypeID.string then ErrKind.noExactIndex
                else ErrKind.notSortable)⟩) ∧
    (env.typeOf ts.attr.headI = some TypeID.uid →
      sortWithIndex env cd ts =
        Except.ok ⟨some emptySortResult, [], some ErrKind.notIndexed⟩) ∧
    (∀ toks t, firstSortable toks = some t →
      t.sortable = true ∧
        ∃ pre post, toks = pre ++ t :: post ∧ ∀ u ∈ pre, u.sortable = false) := by
  refine ⟨?_, ?_, ?_, ?_, firstSortable_spec⟩
  · intro h
    unfold sortWithIndex
    rw [h]
  · intro τ h hidx
    unfold sortWithIndex
    rw [h]
    simp [hidx]
  · intro τ h hidx htok
    unfold sortWithIndex
    rw [h]
    simp only [hidx, htok]
    by_cases hstr : τ = TypeID.string <;> simp [hstr]
  · intro h
    unfold sortWithIndex
    rw [h]
    simp [hwf ts.attr.headI h]

/-- C9 witness: the undefined-attribute case at a concrete fixture. -/
theorem c9_witness :
    sortWithIndex envC9 noCancel tsC9 =
      Except.ok ⟨some emptySortResult, [], some ErrKind.notDefined⟩ :=
  (c9_theorem envC9 noCancel tsC9 (fun _ h => nomatch h)).1 rfl

/-- When every accumulator already holds at least `count > 0` uids, every
row of the bucket loop is skipped and the accumulators are returned
unchanged. -/
theorem ibRows_skip (env : Env) (cd : Nat → Bool) (ts : SortMessage)
    (sType : TypeID) (token : String) (hc : 0 < ts.count) :
    ∀ (rows : List (List Uid)) (out : List IntersectedList),
      (∀ il ∈ out, ts.count ≤ (il.ulist.length : Int)) →
      rows.length = out.length →
      ibRows env cd ts sType token rows out = Except.ok (Except.ok out) := by
  intro rows
  induction rows with
  | nil =>
    intro out _ hlen
    cases out with
    | nil => rfl
    | cons il rest => simp at hlen
  | cons row rest ih =>
    intro out hfull hlen
    cases out with
    | nil => simp at hlen
    | cons il out2 =>
      have h1 : 0 < ts.count ∧ ts.count ≤ (il.ulist.length : Int) :=
        ⟨hc, hfull il (List.mem_cons_self il out2)⟩
      have ih2 := ih out2 (fun x hx => hfull x (List.mem_cons_of_mem il hx))
        (by simpa using hlen)
      unfold ibRows ibStep
      rw [if_pos h1, ih2]

/-- The final size check returns `Done` in multi-attribute mode as soon as
every accumulator holds at least `count` uids. -/
theorem ibCheck_done (count : Int) :
    ∀ out : List IntersectedList,
      (∀ il ∈ out, count ≤ (il.ulist.length : Int)) →
      ibCheck count false out = Except.ok BucketRes.done := by
  intro out
  induction out with
  | nil => intro _; rfl
  | cons il rest ih =>
    intro h
    unfold ibCheck
    rw [if_neg (not_lt.2 (h il (List.mem_cons_self il rest)))]
    simpa using ih (fun x hx => h x (List.mem_cons_of_mem il hx))

/-- C2 (amended): the skip-on-count and the early `Done` are not limited
to single-attribute mode.  In multi-attribute mode, for any bucket, every
row whose accumulator already holds at least `count > 0` uids is skipped
(its accumulator and offset untouched), and once all rows are in that
state the intersector returns `Done` — before the key range is exhausted;
only the slack truncation and the exact-count assertion are restricted to
single-attribute mode. -/
theorem c2_amended (env : Env) (ts : SortMessage) (token : String)
    (out : List IntersectedList) (τ : TypeID)
    (hm : 1 < ts.attr.length) (hc : 0 < ts.count)
    (hτ : env.typeOf ts.attr.headI = some τ) (hs : τ.IsScalar = true)
    (hfull : ∀ il ∈ out, ts.count ≤ (il.ulist.length : Int))
    (hlen : ts.uidMatrix.length = out.length) :
    intersectBucket env noCancel ts token out =
      Except.ok (BucketRes.done, out) := by
  unfold intersectBucket
  rw [hτ]
  simp only []
  rw [if_neg (by simp [hs])]
  rw [ibRows_skip env noCancel ts τ token hc ts.uidMatrix out hfull hlen]
  have hone : (decide (ts.attr.length = 1)) = false := by
    simp only [decide_eq_false_iff_not]
    omega
  simp only []
  rw [hone, ibCheck_done ts.count out hfull]

/-- C2 witness: the amended theorem applied at a concrete bucket whose
only row is already full. -/
theorem c2_witness :
    intersectBucket envC2 noCancel ⟨["a", "b"], [], 1, 0, [[7]], [false, false]⟩
      "t" [⟨0, [4], []⟩] = Except.ok (BucketRes.done, [⟨0, [4], []⟩]) :=
  c2_amended envC2 ⟨["a", "b"], [], 1, 0, [[7]], [false, false]⟩ "t"
    [⟨0, [4], []⟩] TypeID.int (by decide) (by decide) rfl rfl (by decide) rfl

/-- C3 (amended): the per-row body of the bucket intersector follows the
pagination-window algorithm only on the rows it does not skip at the
count-precheck and whose survivors still cover the offset.  A row whose
accumulator already holds `count > 0` uids is skipped with offset and
accumulator untouched (in every mode, not only single-attribute).  For
the other rows, with `hits` the bucket/row intersection and `n = |hits|`:
if `offset ≥ n` the offset is decremented by `n` and nothing is sorted or
appended; otherwise the hits are value-sorted, which may shrink them by
dropping uids without values — and when it shrinks the survivors below a
positive `offset`, the slice `result.Uids[offset:n]` panics (slice bounds
out of range) instead of dropping them; when the survivors do cover the
offset, the first `offset` survivors are dropped and the offset reset to
zero, and — only in single-attribute mode with `count > 0` — the appended
survivors are truncated to the slack `count − |acc|`, so the accumulator
never exceeds `count`. -/
theorem c3_amended (env : Env) (ts : SortMessage) (sType : TypeID)
    (token : String) (ul : List Uid) (il : IntersectedList)
    (uids1 : List Uid) (vals1 : List Val) :
    ((0 < ts.count ∧ ts.count ≤ (il.ulist.length : Int)) →
      ibStep env noCancel ts sType token ul il = Except.ok (Except.ok il)) ∧
    (¬ (0 < ts.count ∧ ts.count ≤ (il.ulist.length : Int)) →
      ((bucketHits env ts.attr.headI token ul).length : Int) ≤ il.offset →
      ibStep env noCancel ts sType token ul il =
        Except.ok (Except.ok
          ⟨il.offset - (bucketHits env ts.attr.headI token ul).length,
           il.ulist, il.values⟩)) ∧
    (¬ (0 < ts.count ∧ ts.count ≤ (il.ulist.length : Int)) →
      il.offset < ((bucketHits env ts.attr.headI token ul).length : Int) →
      sortByValue env noCancel ts (bucketHits env ts.attr.headI token ul) sType =
        Except.ok (uids1, vals1, none) →
      0 < il.offset → (uids1.length : Int) < il.offset →
      ibStep env noCancel ts sType token ul il =
        Except.error Crash.indexOutOfRange) ∧
    (¬ (0 < ts.count ∧ ts.count ≤ (il.ulist.length : Int)) →
      il.offset < ((bucketHits env ts.attr.headI token ul).length : Int) →
      sortByValue env noCancel ts (bucketHits env ts.attr.headI token ul) sType =
        Except.ok (uids1, vals1, none) →
      ¬ (0 < il.offset ∧ (uids1.length : Int) < il.offset) →
      ¬ (0 < ts.count ∧ ts.attr.length = 1) →
      ∃ ir, ibStep env noCancel ts sType token ul il = Except.ok (Except.ok ir) ∧
        ir.offset = (if 0 < il.offset then 0 else il.offset) ∧
        ir.ulist = il.ulist ++
          (if 0 < il.offset then uids1.drop il.offset.toNat else uids1)) ∧
    (¬ (0 < ts.count ∧ ts.count ≤ (il.ulist.length : Int)) →
      il.offset < ((bucketHits env ts.attr.headI token ul).length : Int) →
      sortByValue env noCancel ts (bucketHits env ts.attr.headI token ul) sType =
        Except.ok (uids1, vals1, none) →
      ¬ (0 < il.offset ∧ (uids1.length : Int) < il.offset) →
      0 < ts.count → ts.attr.length = 1 →
      ∃ ir, ibStep env noCancel ts sType token ul il = Except.ok (Except.ok ir) ∧
        ir.offset = (if 0 < il.offset then 0 else il.offset) ∧
        ir.ulist = il.ulist ++
          ((if 0 < il.offset then uids1.drop il.offset.toNat else uids1).take
            (ts.count - (il.ulist.length : Int)).toNat) ∧
        (ir.ulist.length : Int) ≤ ts.count) := by
  refine ⟨?_, ?_, ?_, ?_, ?_⟩
  · intro hskip
    unfold ibStep
    rw [if_pos hskip]
  · intro hskip hoff
    unfold ibStep
    rw [if_neg hskip]
    simp only []
    rw [if_pos hoff]
  · intro hskip hoff hsv hp1 hp2
    unfold ibStep
    rw [if_neg hskip]
    simp only []
    rw [if_neg (not_le.2 hoff), hsv]
    simp only []
    rw [if_pos (And.intro hp1 hp2)]
  · intro hskip hoff hsv hnp hns
    unfold ibStep
    rw [if_neg hskip]
    simp only []
    rw [if_neg (not_le.2 hoff), hsv]
    simp only []
    rw [if_neg hnp]
    rw [if_neg hns]
    refine ⟨_, rfl, rfl, ?_⟩
    by_cases hpos : 0 < il.offset <;> simp only [hpos, if_true, if_false, reduceIte]
    · rw [Int.toNat_natCast, List.take_length]
    · rw [Int.toNat_natCast, List.take_length]
  · intro hskip hoff hsv hnp hcc hone
    unfold ibStep
    rw [if_neg hskip]
    simp only []
    rw [if_neg (not_le.2 hoff), hsv]
    simp only []
    rw [if_neg hnp]
    rw [if_pos (And.intro hcc hone)]
    have hacc : (il.ulist.length : Int) < ts.count := by
      rcases not_and_or.1 hskip with h | h
      · exact absurd hcc h
      · exact lt_of_not_le h
    have hs0 : (0 : Int) ≤ ts.count - il.ulist.length := by omega
    set kept := if 0 < il.offset then uids1.drop il.offset.toNat else uids1 with hkept
    set slack : Int := ts.count - (il.ulist.length : Int) with hslack
    have htake : ∀ n3 : Int,
        n3 = (if slack < (kept.length : Int) then slack else (kept.length : Int)) →
        kept.take n3.toNat = kept.take slack.toNat := by
      intro n3 h3
      by_cases hlt : slack < (kept.length : Int)
      · rw [h3, if_pos hlt]
      · rw [h3, if_neg hlt]
        rw [Int.toNat_natCast, List.take_length,
          List.take_of_length_le (by omega : kept.length ≤ slack.toNat)]
    refine ⟨_, rfl, rfl, ?_, ?_⟩
    · exact congrArg (fun l => il.ulist ++ l) (htake _ rfl)
    · rw [htake _ rfl] at *
      simp only [List.length_append, List.length_take]
      have h1 : min slack.toNat kept.length ≤ slack.toNat := Nat.min_le_left _ _
      omega

/-- `envC3` with bucket `u` of `x` holding uids 1, 2, 3, of which only
uid 1 carries a value. -/
def envC3b : Env :=
  { envC3 with
    bucket := fun a t => if a = "x" ∧ t = "u" then [1, 2, 3] else []
    valueFor := fun a _ u =>
      if a = "x" ∧ u = 1 then some ⟨TypeID.int, some 1⟩ else none }

/-- C3 witness: the slice-panic branch of the amended theorem at a
concrete row — three bucket hits, offset 2, but the row sorter keeps only
one survivor, so the offset slice panics. -/
theorem c3_witness :
    ibStep envC3b noCancel ⟨["x"], [], 0, 0, [[1, 2, 3]], [false]⟩
      TypeID.int "u" [1, 2, 3] ⟨2, [], []⟩ =
      Except.error Crash.indexOutOfRange :=
  (c3_amended envC3b ⟨["x"], [], 0, 0, [[1, 2, 3]], [false]⟩ TypeID.int "u"
    [1, 2, 3] ⟨2, [], []⟩ [1] []).2.2.1 (by decide) (by decide) rfl
    (by decide) (by decide)

/-- With a live context, the uid loop of the row sorter keeps exactly the
uids whose fetch succeeds, in order, appending them to the accumulators;
it produces as many wrapped values as kept uids and never reports an
error. -/
theorem sbvLoop_noCancel (env : Env) (attr : String) (langs : List String)
    (multi : Bool) (typ : TypeID) :
    ∀ (l : List Uid) (i : Nat) (us : List Uid) (vs : List (List Val))
      (ms : List Val),
      ∃ vs2 ms2,
        sbvLoop env noCancel attr langs multi typ i l us vs ms =
          (us ++ l.filter (fun u => (fetchValue env u attr langs typ).isSome),
           vs ++ vs2, ms ++ ms2, none) ∧
        vs2.length =
          (l.filter (fun u => (fetchValue env u attr langs typ).isSome)).length := by
  intro l
  induction l with
  | nil =>
    intro i us vs ms
    exact ⟨[], [], by simp [sbvLoop], rfl⟩
  | cons x rest ih =>
    intro i us vs ms
    cases hf : fetchValue env x attr langs typ with
    | none =>
      obtain ⟨vs2, ms2, heq, hlen⟩ := ih (i + 1) us vs ms
      refine ⟨vs2, ms2, ?_, ?_⟩
      · rw [sbvLoop]
        simp only [noCancel, Bool.false_eq_true, if_false, hf]
        rw [heq]
        simp [List.filter_cons, hf]
      · simp [List.filter_cons, hf, hlen]
    | some v =>
      obtain ⟨vs2, ms2, heq, hlen⟩ :=
        ih (i + 1) (us ++ [x]) (vs ++ [[v]]) (if multi then ms ++ [v] else ms)
      refine ⟨[v] :: vs2, (if multi then [v] else []) ++ ms2, ?_, ?_⟩
      · rw [sbvLoop]
        simp only [noCancel, Bool.false_eq_true, if_false, hf]
        rw [heq]
        have hms : (if multi then ms ++ [v] else ms) ++ ms2 =
            ms ++ ((if multi then [v] else []) ++ ms2) := by
          cases multi <;> simp
        simp [List.filter_cons, hf, hms]
      · simp [List.filter_cons, hf, hlen]

/-- C7 (confirmed): whatever uid list the row sorter is given, the uids it
returns are exactly (a permutation of) those input uids whose
primary-value fetch succeeded — every uid whose fetch fails for any
reason is dropped, and no uid without a primary value survives into the
sorted row. -/
theorem c7_theorem (env : Env) (ts : SortMessage) (ul : List Uid)
    (typ : TypeID) (us : List Uid) (vs : List Val) (e : Option ErrKind)
    (h : sortByValue env noCancel ts ul typ = Except.ok (us, vs, e)) :
    us.Perm
      (ul.filter (fun u => (fetchValue env u ts.attr.headI ts.langs typ).isSome)) := by
  unfold sortByValue at h
  simp only [] at h
  obtain ⟨vs2, ms2, heq, hlen⟩ :=
    sbvLoop_noCancel env ts.attr.headI ts.langs (1 < ts.attr.length) typ ul 0 [] [] []
  rw [heq] at h
  simp only [List.nil_append] at h
  split at h
  · exact absurd h (by simp)
  · rw [Except.ok.injEq, Prod.mk.injEq, Prod.mk.injEq] at h
    obtain ⟨hus, -, -⟩ := h
    subst hus
    set keep := ul.filter (fun u => (fetchValue env u ts.attr.headI ts.langs typ).isSome)
      with hkeep
    have hperm : ((vs2.zip keep).insertionSort
        (fun a b => lexLt [ts.desc.headI] b.1 a.1 = false)).Perm (vs2.zip keep) :=
      List.perm_insertionSort _ _
    have hmap := hperm.map Prod.snd
    have hz : (vs2.zip keep).map Prod.snd = keep :=
      List.map_snd_zip vs2 keep (le_of_eq hlen.symm)
    rw [hz] at hmap
    exact hmap

/-- C7 witness: the theorem applied at a concrete row where uid 2 has no
value: only uid 1 survives. -/
theorem c7_witness :
    List.Perm [1]
      (List.filter (fun u => (fetchValue envA u "a" [] TypeID.int).isSome) [1, 2]) :=
  c7_theorem envA tsC7 [1, 2] TypeID.int [1] [] none rfl

/-- The sorted uid component of `typesSort` has the length of the shorter
input (their common length in every use). -/
theorem typesSort_snd_length (vals : List (List Val)) (uids : List Uid)
    (desc : List Bool) :
    (typesSort vals uids desc).2.length = min vals.length uids.length := by
  simp [typesSort, List.length_insertionSort, List.length_zip]

/-- When every uid of a row occurs in `dest`, the value-vector lookup of
the final loop succeeds and yields one vector per uid. -/
theorem rowVals_ok (dest : List Uid) (sortVals : List (List Val)) :
    ∀ row : List Uid,
      (∀ u ∈ row, (dest.findIdx? (· = u)).isSome = true) →
      ∃ vals, rowVals dest sortVals row = Except.ok vals ∧
        vals.length = row.length := by
  intro row
  induction row with
  | nil => exact fun _ => ⟨[], rfl, rfl⟩
  | cons u rest ih =>
    intro h
    have hu := h u (List.mem_cons_self u rest)
    cases hfind : dest.findIdx? (· = u) with
    | none => rw [hfind] at hu; simp at hu
    | some d =>
      obtain ⟨vals, hv, hl⟩ := ih (fun x hx => h x (List.mem_cons_of_mem u hx))
      refine ⟨sortVals.getD d [] :: vals, ?_, by simp [hl]⟩
      rw [rowVals, hfind, hv]

/-- Whether the final truncation produced a matrix whose every row has
exactly `count` uids. -/
def allRowsExact (count : Int) : Except Crash (List (List Uid)) → Bool
  | Except.ok m => m.all (fun r => r.length = count.toNat)
  | Except.error _ => false

/-- C4 (amended): the extender's final loop requires every row of the
primary result to hold at least `count` identifiers — which the indexed
scanner does NOT guarantee (see the counterexample); when every row does,
and every row uid occurs in the destination union, the assertion passes
and every output row is truncated to exactly `count` identifiers after
the lexicographic re-sort. -/
theorem c4_amended (dest : List Uid) (sortVals : List (List Val))
    (desc : List Bool) (count : Int) (rows : List (List Uid))
    (h0 : 0 ≤ count)
    (hlen : ∀ row ∈ rows, count ≤ (row.length : Int))
    (hmem : ∀ row ∈ rows, ∀ u ∈ row, (dest.findIdx? (· = u)).isSome = true) :
    allRowsExact count (multiSortFinal dest sortVals desc count rows) = true := by
  induction rows with
  | nil => rfl
  | cons row rest ih =>
    obtain ⟨vals, hv, hvl⟩ :=
      rowVals_ok dest sortVals row (hmem row (List.mem_cons_self row rest))
    have ihh := ih (fun r hr => hlen r (List.mem_cons_of_mem row hr))
      (fun r hr => hmem r (List.mem_cons_of_mem row hr))
    have hcount : count ≤ ((row.length : Nat) : Int) :=
      hlen row (List.mem_cons_self row rest)
    have hslen : (typesSort vals row desc).2.length = row.length := by
      rw [typesSort_snd_length, hvl, Nat.min_self]
    unfold multiSortFinal
    rw [hv]
    simp only []
    rw [if_neg (by rw [hslen]; exact not_lt.2 hcount)]
    cases hrec : multiSortFinal dest sortVals desc count rest with
    | error c => rw [hrec] at ihh; simp [allRowsExact] at ihh
    | ok ms =>
      rw [hrec] at ihh
      simp only [allRowsExact, List.all_cons, Bool.and_eq_true, decide_eq_true_eq]
      refine ⟨?_, by simpa [allRowsExact] using ihh⟩
      rw [List.length_take, hslen]
      exact Nat.min_eq_left (by omega)

/-- C4 witness: the amended theorem applied at a concrete one-row matrix
that does hold at least `count = 1` uids. -/
theorem c4_witness :
    allRowsExact 1 (multiSortFinal [1]
      [[⟨TypeID.int, some 5⟩, ⟨TypeID.int, some 7⟩]] [false, false] 1 [[1]]) = true :=
  c4_amended [1] [[⟨TypeID.int, some 5⟩, ⟨TypeID.int, some 7⟩]] [false, false] 1
    [[1]] (by decide) (by decide) (by decide)

/-- The non-indexed path never produces per-row value vectors: every one
of its results carries `vals = []`. -/
theorem swo_vals_nil (env : Env) (cd : Nat → Bool) (ts : SortMessage)
    (r : sortresult) (h : sortWithoutIndex env cd ts = Except.ok r) :
    r.vals = [] := by
  unfold sortWithoutIndex at h
  repeat
    first
    | (rw [Except.ok.injEq] at h; subst h; rfl)
    | exact Except.noConfusion h
    | split at h
    | simp only [] at h

/-- C1 (amended): when the non-indexed strategy's result is the first
non-error result taken by the racer for a multi-attribute request,
`processSort` does NOT return that single-attribute result unchanged: it
proceeds into the multi-attribute extension, and since the non-indexed
path produces no per-row value vectors, indexing `r.vals[i]` panics as
soon as the matrix has at least one row. -/
theorem c1_amended (env : Env) (ts : SortMessage) (r1 r2 : sortresult)
    (rep : SortResult)
    (hcnt : ¬ ts.count < 0) (hlist : env.isList ts.attr.headI = false)
    (hm : 1 < ts.attr.length)
    (h1 : sortWithoutIndex env noCancel ts = Except.ok r1)
    (he : r1.err = none) (hrep : r1.reply = some rep)
    (hne : rep.uidMatrix ≠ [])
    (h2 : sortWithIndex env noCancel ts = Except.ok r2) :
    processSort env noCancel ts true = Except.error Crash.indexOutOfRange := by
  have hv : r1.vals = [] := swo_vals_nil env noCancel ts r1 h1
  unfold processSort
  rw [if_neg hcnt]
  rw [if_neg (by simp [hlist])]
  have hcd : noCancel 0 = false := rfl
  simp only [hcd, Bool.false_eq_true, if_false]
  rw [h1, h2]
  simp only []
  rw [if_neg (by simp [hm, he])]
  simp only [if_true, he, Option.isNone_none, eq_self_iff_true]
  rw [hrep]
  simp only []
  rw [hv]
  cases hmat : rep.uidMatrix with
  | nil => exact absurd hmat hne
  | cons row rest => rfl

/-- C1 witness: the amended theorem applied at the concrete fixture where
the non-indexed path wins with `[[1]]`. -/
theorem c1_witness :
    processSort envC1 noCancel tsC1 true = Except.error Crash.indexOutOfRange :=
  c1_amended envC1 tsC1 ⟨some (SortResult.mk [[1]]), [], none⟩
    ⟨some emptySortResult, [], some ErrKind.notIndexed⟩ (SortResult.mk [[1]])
    (by decide) rfl (by decide) rfl rfl rfl (by simp) rfl

/-- C8 (amended): a negative count or a list-typed first attribute makes
`processSort` fail up front with a nil reply and an `InvalidRequest`-class
error.  An undefined first attribute fails both strategies and surfaces an
`InvalidRequest`-class error with the empty matrix under either arrival
order.  An object-typed first attribute (never indexed, per the schema
parser) also fails with the empty matrix, but the surfaced error class
depends on the race: it is the object-type `InvalidRequest` error only
when the indexed result arrives first; when the non-indexed result
arrives first the racer hands back the indexed path's `NotIndexed`
error. -/
theorem c8_amended (env : Env) (ts : SortMessage) (b : Bool) :
    (ts.count < 0 →
      processSort env noCancel ts b =
        Except.ok (none, some ErrKind.negativeCount)) ∧
    (¬ ts.count < 0 → env.isList ts.attr.headI = true →
      processSort env noCancel ts b =
        Except.ok (none, some ErrKind.sortOnList)) ∧
    (¬ ts.count < 0 → env.isList ts.attr.headI = false →
      env.typeOf ts.attr.headI = none →
      processSort env noCancel ts b =
        Except.ok (some emptySortResult,
          some (if b then ErrKind.notDefined else ErrKind.objectType)) ∧
      isInvalidRequestClass
        (if b then ErrKind.notDefined else ErrKind.objectType) = true) ∧
    (¬ ts.count < 0 → env.isList ts.attr.headI = false →
      env.typeOf ts.attr.headI = some TypeID.uid →
      env.isIndexed ts.attr.headI = false →
      processSort env noCancel ts b =
        Except.ok (some emptySortResult,
          some (if b then ErrKind.notIndexed else ErrKind.objectType))) := by
  refine ⟨?_, ?_, ?_, ?_⟩
  · intro h
    unfold processSort
    rw [if_pos h]
  · intro h hl
    unfold processSort
    rw [if_neg h, if_pos hl]
  · intro h hl ht
    have hswo : sortWithoutIndex env noCancel ts =
        Except.ok ⟨some emptySortResult, [], some ErrKind.objectType⟩ := by
      unfold sortWithoutIndex
      rw [ht]
    have hswi : sortWithIndex env noCancel ts =
        Except.ok ⟨some emptySortResult, [], some ErrKind.notDefined⟩ := by
      unfold sortWithIndex
      rw [ht]
    unfold processSort
    rw [if_neg h, if_neg (by simp [hl])]
    simp only [show noCancel 0 = false from rfl, Bool.false_eq_true, if_false]
    rw [hswo, hswi]
    cases b <;> simp [isInvalidRequestClass]
  · intro h hl ht hidx
    have hswo : sortWithoutIndex env noCancel ts =
        Except.ok ⟨some emptySortResult, [], some ErrKind.objectType⟩ := by
      unfold sortWithoutIndex
      rw [ht]
      simp only []
      rw [if_pos (by decide)]
    have hswi : sortWithIndex env noCancel ts =
        Except.ok ⟨some emptySortResult, [], some ErrKind.notIndexed⟩ := by
      unfold sortWithIndex
      rw [ht]
      simp only []
      rw [if_pos (by simp [hidx])]
    unfold processSort
    rw [if_neg h, if_neg (by simp [hl])]
    simp only [show noCancel 0 = false from rfl, Bool.false_eq_true, if_false]
    rw [hswo, hswi]
    cases b <;> simp

/-- C8 witness: the negative-count case of the amended theorem at a
concrete request. -/
theorem c8_witness :
    processSort envA noCancel tsC8w false =
      Except.ok (none, some ErrKind.negativeCount) :=
  (c8_amended envA tsC8w false).1 (by decide)

/-- With `count = 0`, every row the final truncation produces is empty. -/
theorem msf_zero (dest : List Uid) (sortVals : List (List Val))
    (desc : List Bool) :
    ∀ rows m, multiSortFinal dest sortVals desc 0 rows = Except.ok m →
      m.all (fun r => r.isEmpty) = true := by
  intro rows
  induction rows with
  | nil =>
    intro m h
    rw [show multiSortFinal dest sortVals desc 0 [] = Except.ok [] from rfl,
      Except.ok.injEq] at h
    subst h
    rfl
  | cons row rest ih =>
    intro m h
    unfold multiSortFinal at h
    split at h
    · exact Except.noConfusion h
    · simp only [] at h
      split at h
      · exact Except.noConfusion h
      · split at h
        · exact Except.noConfusion h
        · rename_i ms hrec
          rw [Except.ok.injEq] at h
          subst h
          simp only [List.all_cons, Bool.and_eq_true]
          exact ⟨by simp, ih ms hrec⟩

/-- C10 (confirmed): a multi-attribute request with `count = 0` that runs
the extension to completion gets every output row truncated to the empty
list — the final slice `row[:count]` is unconditional — whereas in the
pagination helper of the non-indexed path `count = 0` means "all" (the
window end is the row length). -/
theorem c10_theorem :
    (∀ (env : Env) (ts : SortMessage) (b : Bool) (rep : SortResult),
      ts.count = 0 → 1 < ts.attr.length →
      processSort env noCancel ts b = Except.ok (some rep, none) →
      rep.uidMatrix.all (fun r => r.isEmpty) = true) ∧
    (∀ (ts : SortMessage) (l : List Uid),
      ts.count = 0 → ts.offset = 0 → paginate ts l = l) := by
  constructor
  · intro env ts b rep hc hm h
    unfold processSort at h
    rw [if_neg (by omega)] at h
    simp only [show noCancel 0 = false from rfl, Bool.false_eq_true,
      if_false] at h
    repeat
      first
      | split at h
      | exact Except.noConfusion h
      | (rename_i m hrec
         rw [hc] at hrec
         rw [Except.ok.injEq, Prod.mk.injEq, Option.some.injEq] at h
         rw [← h.1]
         exact msf_zero _ _ _ _ m hrec)
      | (rename_i hcond
         rw [Except.ok.injEq, Prod.mk.injEq] at h
         cases hcond with
         | inl hcond => exact absurd hm hcond
         | inr hcond => rw [h.2] at hcond; simp at hcond)
      | simp at h
  · intro ts l hc ho
    unfold paginate pageRange
    rw [hc, ho]
    simp [Int.toNat_natCast, List.take_length]

/-- C10 witness: the theorem applied at the concrete fixture, plus the
pagination-helper contrast. -/
theorem c10_witness :
    (SortResult.mk [[]]).uidMatrix.all (fun r => r.isEmpty) = true ∧
    paginate ⟨["a", "b"], [], 0, 0, [[1]], [false, false]⟩ [8, 9] = [8, 9] :=
  ⟨c10_theorem.1 envA tsC10 false (SortResult.mk [[]]) rfl (by decide) rfl,
   c10_theorem.2 ⟨["a", "b"], [], 0, 0, [[1]], [false, false]⟩ [8, 9] rfl rfl⟩

end DgraphSort
